import Mathlib

/-!
Shallow embedding of the null.qubit device module
(`pennylane/devices/null_qubit.py`): the zero-result synthesizer
(`zero_measurement` and its per-measurement-kind overloads), the resource
accountant (`_simulate_resource_use`), the execution facade (`_simulate`,
`execute`, `_derivatives`, `_vjp`, `_jvp`) and the configuration
normalization performed by `preprocess`.

Modelling conventions:
* Machine floats are modelled as `Rat`; the module only ever materializes
  the literals 0 and 1, so no rounding behaviour is lost.
* Array values, python tuples and the dictionaries returned for counts
  measurements are modelled by the inductive types `RVal` and `Res`.
* The `shots` argument flows through the python code duck-typed: the
  executing path passes an individual `int | None`, while `_derivatives`
  passes the whole `Shots` container.  `ShotsArg` reifies the two cases.
* Python exceptions are modelled with `Except String`; the `interface`
  argument only selects the array backend (and the allocation cache) and
  never changes any produced value, so it is not modelled.
* The resource-report file side effect is modelled by returning the pair
  of the computed file name and the JSON payload that would be written.
-/

/-- Shots value as it reaches `zero_measurement`: either an individual
shot count (or `None`), or the whole shot-vector object. -/
inductive ShotsArg where
  | int (s : Option Nat)
  | shotspec (l : List Nat)
deriving DecidableEq, Repr

/-- Result values produced by the synthesizer: numeric scalars, nested
arrays / python lists, and the two kinds of counts dictionaries (keyed by
bitstring or by eigenvalue).  Dictionary values are the stored shots
object (`ShotsArg.int (some 0)` for the literal zero entries). -/
inductive RVal where
  | num (q : Rat)
  | arr (l : List RVal)
  | dictS (entries : List (String × ShotsArg))
  | dictE (entries : List (Int × ShotsArg))
deriving Repr

mutual

/-- Boolean structural equality on `RVal`. -/
def RVal.beq : RVal → RVal → Bool
  | .num a, .num b => a == b
  | .arr l1, .arr l2 => RVal.beqList l1 l2
  | .dictS e1, .dictS e2 => e1 == e2
  | .dictE e1, .dictE e2 => e1 == e2
  | _, _ => false

/-- Pointwise `RVal.beq` on lists. -/
def RVal.beqList : List RVal → List RVal → Bool
  | [], [] => true
  | x :: xs, y :: ys => RVal.beq x y && RVal.beqList xs ys
  | _, _ => false

end

mutual

/-- Soundness of `RVal.beq`. -/
theorem RVal.beq_iff : ∀ a b : RVal, RVal.beq a b = true ↔ a = b
  | .num _, .num _ => by simp [RVal.beq]
  | .num _, .arr _ => by simp [RVal.beq]
  | .num _, .dictS _ => by simp [RVal.beq]
  | .num _, .dictE _ => by simp [RVal.beq]
  | .arr _, .num _ => by simp [RVal.beq]
  | .arr l1, .arr l2 => by
      have h := RVal.beqList_iff l1 l2
      simp [RVal.beq, h]
  | .arr _, .dictS _ => by simp [RVal.beq]
  | .arr _, .dictE _ => by simp [RVal.beq]
  | .dictS _, .num _ => by simp [RVal.beq]
  | .dictS _, .arr _ => by simp [RVal.beq]
  | .dictS _, .dictS _ => by simp [RVal.beq]
  | .dictS _, .dictE _ => by simp [RVal.beq]
  | .dictE _, .num _ => by simp [RVal.beq]
  | .dictE _, .arr _ => by simp [RVal.beq]
  | .dictE _, .dictS _ => by simp [RVal.beq]
  | .dictE _, .dictE _ => by simp [RVal.beq]

/-- Soundness of `RVal.beqList`. -/
theorem RVal.beqList_iff : ∀ l1 l2 : List RVal, RVal.beqList l1 l2 = true ↔ l1 = l2
  | [], [] => by simp [RVal.beqList]
  | [], _ :: _ => by simp [RVal.beqList]
  | _ :: _, [] => by simp [RVal.beqList]
  | x :: xs, y :: ys => by
      have h1 := RVal.beq_iff x y
      have h2 := RVal.beqList_iff xs ys
      simp [RVal.beqList, h1, h2]

end

instance : DecidableEq RVal := fun a b => decidable_of_iff _ (RVal.beq_iff a b)

instance {ε α : Type} [DecidableEq ε] [DecidableEq α] : DecidableEq (Except ε α) :=
  fun x y =>
    match x, y with
    | Except.ok a, Except.ok b =>
        if h : a = b then Decidable.isTrue (h ▸ rfl)
        else Decidable.isFalse (fun hh => h (Except.ok.inj hh))
    | Except.error e, Except.error f =>
        if h : e = f then Decidable.isTrue (h ▸ rfl)
        else Decidable.isFalse (fun hh => h (Except.error.inj hh))
    | Except.ok _, Except.error _ => Decidable.isFalse Except.noConfusion
    | Except.error _, Except.ok _ => Decidable.isFalse Except.noConfusion

/-- All-zero array of the given shape (`math.zeros(shape)`). -/
def zerosVal : List Nat → RVal
  | [] => RVal.num 0
  | d :: rest => RVal.arr (List.replicate d (zerosVal rest))

/-- Binary representation of `x` zero-padded to `width` characters, the
python format `f-string` with spec `0{width}b` (for `x < 2 ^ width`). -/
def toBinString (width x : Nat) : String :=
  String.mk ((List.range width).map (fun i =>
    if x / 2 ^ (width - 1 - i) % 2 = 1 then '1' else '0'))

/-- Python-dict update `d[key] = v`: overwrite in place when the key is
present (keeping its position and original key object), append otherwise. -/
def dictUpd {κ : Type} [DecidableEq κ] :
    List (κ × ShotsArg) → κ → ShotsArg → List (κ × ShotsArg)
  | [], key, v => [(key, v)]
  | (k, w) :: rest, key, v =>
      if k = key then (k, v) :: rest else (k, w) :: dictUpd rest key v

/-- Replication of a counts dictionary across the batch dimension:
`tuple(results for _ in range(batch_size))` when `batch_size` is set. -/
def batchCounts (r : RVal) : Option Nat → RVal
  | none => r
  | some b => RVal.arr (List.replicate b r)

/-- The `CountsMP` overload of `zero_measurement`.  `hasObsOrMv` is true
exactly when `mp.obs is not None or isinstance(mp.mv, MeasurementValue)`;
`eigvals` are the observable eigenvalues (`mp.eigvals()`), with
multiplicity, modelled as integers. -/
def countsZeroMeasurement (hasObsOrMv : Bool) (eigvals : List Int)
    (allOutcomes : Bool) (numDeviceWires : Nat) (shots : ShotsArg)
    (batchSize : Option Nat) : Except String RVal :=
  let zero : ShotsArg := ShotsArg.int (some 0)
  if !hasObsOrMv then
    let state := String.mk (List.replicate numDeviceWires '0')
    let outcomes : List String :=
      if allOutcomes then
        (List.range (2 ^ numDeviceWires - 1)).map
          (fun i => toBinString numDeviceWires (i + 1))
      else []
    let results := outcomes.foldl (fun acc s => dictUpd acc s zero) [(state, shots)]
    Except.ok (batchCounts (RVal.dictS results) batchSize)
  else
    match List.insertionSort (· ≤ ·) eigvals with
    | [] => Except.error "list index out of range"
    | e :: es =>
        let outcomes := if allOutcomes then es else []
        let results := outcomes.foldl (fun acc v => dictUpd acc v zero) [(e, shots)]
        Except.ok (batchCounts (RVal.dictE results) batchSize)

/-- Measurement processes, tagged by which `zero_measurement` overload
handles them.  `generic` covers every kind without a dedicated overload
(including `DensityMatrixMP`, registered to the default `_zero_measurement`);
its `shape` field is the measurement's own `mp.shape(shots, num_device_wires)`
function. -/
inductive MP where
  | generic (shape : ShotsArg → Nat → List Nat)
  | shadow (shape : ShotsArg → Nat → List Nat)
  | counts (hasObsOrMv : Bool) (eigvals : List Int) (allOutcomes : Bool)
  | stateOrProb (wires : List Nat)

/-- The `zero_measurement` single-dispatch function of null_qubit.py. -/
def zero_measurement (mp : MP) (numDeviceWires : Nat) (shots : ShotsArg)
    (batchSize : Option Nat) : Except String RVal :=
  match mp with
  | MP.generic shape =>
      let s0 := shape shots numDeviceWires
      let s := match batchSize with | some b => b :: s0 | none => s0
      Except.ok (zerosVal s)
  | MP.shadow shape =>
      match batchSize with
      | some _ =>
          Except.error
            "Parameter broadcasting is not supported with null.qubit and qml.classical_shadow"
      | none => Except.ok (zerosVal (shape shots numDeviceWires))
  | MP.counts hasObsOrMv eigvals allOutcomes =>
      countsZeroMeasurement hasObsOrMv eigvals allOutcomes numDeviceWires shots batchSize
  | MP.stateOrProb wires =>
      let numWires := if wires.length = 0 then numDeviceWires else wires.length
      let state : List RVal := RVal.num 1 :: List.replicate (2 ^ numWires - 1) (RVal.num 0)
      match batchSize with
      | none => Except.ok (RVal.arr state)
      | some b => Except.ok (RVal.arr (List.replicate b (RVal.arr state)))

/-- Circuit operations as seen by `_simulate_resource_use`.  `controlled`
models wrappers whose exact runtime type is `Controlled` or `ControlledOp`
(carrying `len(op.control_wires)`); `adjoint` models `Adjoint` wrappers;
`atomic` models operations that expose a `base` attribute but are neither
(e.g. `CNOT`), on which the unwrapping loop breaks; `plain` models
operations without a `base` attribute. -/
inductive Op where
  | plain (name : String)
  | controlled (controlWireCount : Nat) (base : Op)
  | adjoint (base : Op)
  | atomic (name : String) (base : Op)
deriving DecidableEq, Repr

/-- The `while hasattr(op, "base")` unwrapping loop: accumulates the total
control-wire count and the adjoint parity, returning them together with
the name of the operation the loop stops at. -/
def unwrapOp : Op → Nat → Bool → Nat × Bool × String
  | Op.plain n, controls, adj => (controls, adj, n)
  | Op.atomic n _, controls, adj => (controls, adj, n)
  | Op.controlled k base, controls, adj => unwrapOp base (controls + k) adj
  | Op.adjoint base, controls, adj => unwrapOp base controls (!adj)

/-- Name composition of `_simulate_resource_use` for one operation:
`none` for barriers (skipped entirely), otherwise the unwrapped name
wrapped first in `Adj(...)` when the adjoint parity is set and then in the
`{count}C(...)` control form when any control wires were accumulated. -/
def composedName (op : Op) : Option String :=
  let u := unwrapOp op 0 false
  let controls := u.1
  let adj := u.2.1
  let n := u.2.2
  if n = "Barrier" then none
  else
    let name1 := if adj then "Adj(" ++ n ++ ")" else n
    let name2 :=
      if controls ≠ 0 then
        (if controls > 1 then toString controls else "") ++ "C(" ++ name1 ++ ")"
      else name1
    some name2

/-- Increment of a `defaultdict(int)` histogram entry, preserving
first-seen insertion order of keys. -/
def bumpCount : List (String × Nat) → String → List (String × Nat)
  | [], key => [(key, 1)]
  | (k, v) :: rest, key =>
      if k = key then (k, v + 1) :: rest else (k, v) :: bumpCount rest key

/-- Quantum circuit (tape) as read by the device: operations and
measurements in declaration order, the circuit's wire set, the shot
vector (empty for analytic execution, one entry per shot partition
otherwise), the broadcasting batch size and the number of trainable
parameters. -/
structure Circuit where
  operations : List Op
  measurements : List MP
  wires : List Nat
  shots : List Nat
  batch_size : Option Nat
  num_trainable_params : Nat

/-- JSON payload written by `_simulate_resource_use`. -/
structure ResourceReport where
  num_wires : Nat
  num_gates : Nat
  gate_types : List (String × Nat)
deriving DecidableEq, Repr

/-- The `_simulate_resource_use` accountant: walks the operations,
skipping barriers, and aggregates the histogram of composed names. -/
def simulate_resource_use (circuit : Circuit) : ResourceReport :=
  let gt := circuit.operations.foldl
    (fun acc op =>
      match composedName op with
      | none => acc
      | some n => bumpCount acc n)
    []
  { num_wires := circuit.wires.length
    num_gates := (gt.map Prod.snd).sum
    gate_types := gt }

/-- Effective device wire count:
`len(self.wires) if self.wires else len(circuit.wires)` — the device's
own wires when constructed with a non-empty wire set, else the circuit's. -/
def effectiveNumWires (deviceWires : Option (List Nat)) (circuit : Circuit) : Nat :=
  match deviceWires with
  | none => circuit.wires.length
  | some w => if w.length = 0 then circuit.wires.length else w.length

/-- Per-circuit results: a single measurement value or a python tuple. -/
inductive Res where
  | val (v : RVal)
  | seq (l : List Res)
deriving Repr

mutual

/-- Boolean structural equality on `Res`. -/
def Res.beq : Res → Res → Bool
  | .val a, .val b => a == b
  | .seq l1, .seq l2 => Res.beqList l1 l2
  | _, _ => false

/-- Pointwise `Res.beq` on lists. -/
def Res.beqList : List Res → List Res → Bool
  | [], [] => true
  | x :: xs, y :: ys => Res.beq x y && Res.beqList xs ys
  | _, _ => false

end

mutual

/-- Soundness of `Res.beq`. -/
theorem Res.resBeq_iff : ∀ a b : Res, Res.beq a b = true ↔ a = b
  | .val a, .val b => by simp [Res.beq]
  | .val _, .seq _ => by simp [Res.beq]
  | .seq _, .val _ => by simp [Res.beq]
  | .seq l1, .seq l2 => by
      have h := Res.resBeqList_iff l1 l2
      simp [Res.beq, h]

/-- Soundness of `Res.beqList`. -/
theorem Res.resBeqList_iff : ∀ l1 l2 : List Res, Res.beqList l1 l2 = true ↔ l1 = l2
  | [], [] => by simp [Res.beqList]
  | [], _ :: _ => by simp [Res.beqList]
  | _ :: _, [] => by simp [Res.beqList]
  | x :: xs, y :: ys => by
      have h1 := Res.resBeq_iff x y
      have h2 := Res.resBeqList_iff xs ys
      simp [Res.beqList, h1, h2]

end

instance : DecidableEq Res := fun a b => decidable_of_iff _ (Res.resBeq_iff a b)

namespace NullQubit

/-- Singleton unwrapping `r[0] if len(circuit.measurements) == 1 else r`
applied to the tuple of per-measurement results. -/
def wrapSingle (l : List RVal) : Res :=
  match l with
  | [x] => Res.val x
  | l => Res.seq (l.map Res.val)

/-- Python indexing `results[0]`; the list is never empty because the
iteration source `circuit.shots or [None]` is never empty. -/
def firstResult : List Res → Except String Res
  | r :: _ => Except.ok r
  | [] => Except.error "IndexError: list index out of range"

/-- Inner body of `_simulate`'s per-shot loop: the tuple of the
measurements' zero results, unwrapped to the bare value when the circuit
has exactly one measurement. -/
def perPartition (numDeviceWires : Nat) (circuit : Circuit) (s : ShotsArg) :
    Except String Res := do
  let rvals ← circuit.measurements.mapM
    (fun mp => zero_measurement mp numDeviceWires s circuit.batch_size)
  pure (wrapSingle rvals)

/-- The `NullQubit._simulate` method: one per-partition result per entry
of `circuit.shots or [None]`, returned as a tuple when the shot vector is
partitioned (more than one entry) and as the bare first result otherwise. -/
def simulate (deviceWires : Option (List Nat)) (circuit : Circuit) :
    Except String Res := do
  let ndw := effectiveNumWires deviceWires circuit
  let shotsList : List ShotsArg :=
    if circuit.shots.isEmpty then [ShotsArg.int none]
    else circuit.shots.map (fun s => ShotsArg.int (some s))
  let results ← shotsList.mapM (perPartition ndw circuit)
  if circuit.shots.length > 1 then pure (Res.seq results)
  else firstResult results

/-- The `NullQubit.execute` method (without resource tracking): one
per-circuit result per input circuit, in input order; any raised
exception aborts the whole batch. -/
def execute (deviceWires : Option (List Nat)) (circuits : List Circuit) :
    Except String (List Res) :=
  circuits.mapM (simulate deviceWires)

/-- Resource report file name,
`RESOURCES_FNAME_PREFIX + str(timestamp) + ".json"`. -/
def resourcesFname (timestamp : Nat) : String :=
  "__pennylane_resources_data_" ++ toString timestamp ++ ".json"

/-- The `NullQubit.execute` method with resource tracking enabled, the
file side effect modelled as the returned list of (file name, payload)
pairs; `ts i` is the nanosecond timestamp observed when circuit `i` is
simulated. -/
def executeTracked (deviceWires : Option (List Nat)) (track : Bool)
    (ts : Nat → Nat) (circuits : List Circuit) :
    Except String (List Res) × List (String × ResourceReport) :=
  (circuits.mapM (simulate deviceWires),
   if track then
     circuits.enum.map (fun p => (resourcesFname (ts p.1), simulate_resource_use p.2))
   else [])

mutual

/-- Zeroed copy of a result value (`math.zeros_like`). -/
def zerosLike : RVal → RVal
  | RVal.num _ => RVal.num 0
  | RVal.arr l => RVal.arr (zerosLikeList l)
  | RVal.dictS e => RVal.dictS (e.map (fun p => (p.1, ShotsArg.int (some 0))))
  | RVal.dictE e => RVal.dictE (e.map (fun p => (p.1, ShotsArg.int (some 0))))

/-- Pointwise `zerosLike` on lists. -/
def zerosLikeList : List RVal → List RVal
  | [] => []
  | x :: xs => zerosLike x :: zerosLikeList xs

end

/-- The `NullQubit._derivatives` method: per measurement, an `n`-tuple of
zeroed copies of the measurement's zero result (`n` the number of
trainable parameters), with singleton unwrapping first over `n` and then
over the number of measurements.  The whole `circuit.shots` container is
passed through as the `shots` argument. -/
def derivatives (deviceWires : Option (List Nat)) (circuit : Circuit) :
    Except String Res := do
  let ndw := effectiveNumWires deviceWires circuit
  let n := circuit.num_trainable_params
  let inner ← circuit.measurements.mapM (fun mp => do
    let z ← zero_measurement mp ndw (ShotsArg.shotspec circuit.shots) circuit.batch_size
    pure (Res.seq (List.replicate n (Res.val (zerosLike z)))))
  let ders := if n = 1 then
      inner.map (fun d => match d with
        | Res.seq (x :: _) => x
        | d => d)
    else inner
  match ders with
  | [d] => pure d
  | l => pure (Res.seq l)

/-- The `NullQubit._vjp` static method: an all-zero array of shape `(n,)`
(or `(n, batch_size)` under broadcasting), `n` the trainable-parameter
count. -/
def vjp (circuit : Circuit) : RVal :=
  let n := circuit.num_trainable_params
  let resShape := match circuit.batch_size with
    | none => [n]
    | some b => [n, b]
  zerosVal resShape

/-- The `NullQubit._jvp` static method: a tuple of scalar zeros, one per
measurement, unwrapped when the circuit has exactly one measurement. -/
def jvp (circuit : Circuit) : Res :=
  let jvps := List.replicate circuit.measurements.length (RVal.num 0)
  match jvps with
  | [x] => Res.val x
  | l => Res.seq (l.map Res.val)

/-- The `NullQubit.compute_vjp` method: per-circuit `_vjp`, ignoring the
supplied cotangents. -/
def compute_vjp (circuits : List Circuit) (cotangents : List RVal) : List RVal :=
  circuits.map vjp

/-- The `NullQubit.compute_jvp` method: per-circuit `_jvp`, ignoring the
supplied tangents. -/
def compute_jvp (circuits : List Circuit) (tangents : List RVal) : List Res :=
  circuits.map jvp

end NullQubit

/-- Execution configuration fields read and filled by
`NullQubit.preprocess`; `none` models python `None` (an unset field). -/
structure ExecutionConfig where
  gradient_method : Option String
  use_device_gradient : Option Bool
  use_device_jacobian_product : Option Bool
  grad_on_execution : Option Bool
deriving DecidableEq, Repr

/-- Configuration normalization performed at the end of
`NullQubit.preprocess`: the `updated_values` dictionary is computed
reading only the ORIGINAL `execution_config`, then applied at once via
`dataclasses.replace`, which builds a fresh configuration value. -/
def preprocessConfig (cfg : ExecutionConfig) : ExecutionConfig :=
  let origGM := cfg.gradient_method
  let newGM :=
    if origGM = some "best" ∨ origGM = some "adjoint" then some "device" else origGM
  let udg := match cfg.use_device_gradient with
    | none => some (origGM = some "best" ∨ origGM = some "device" ∨
        origGM = some "adjoint" ∨ origGM = some "backprop" : Bool)
    | some b => some b
  let udjp := match cfg.use_device_jacobian_product with
    | none => some (origGM = some "device" : Bool)
    | some b => some b
  let goe := match cfg.grad_on_execution with
    | none => some (origGM = some "device" : Bool)
    | some b => some b
  { gradient_method := newGM
    use_device_gradient := udg
    use_device_jacobian_product := udjp
    grad_on_execution := goe }

/-- Indexing specification of `List.mapM` over `Except`: a successful
traversal has one output per input, with the function succeeding
pointwise in order. -/
theorem exceptMapM_spec {α β : Type} (f : α → Except String β) :
    ∀ (l : List α) (out : List β), l.mapM f = Except.ok out →
      out.length = l.length ∧
      ∀ i (hi : i < l.length) (hj : i < out.length),
        f (l.get ⟨i, hi⟩) = Except.ok (out.get ⟨i, hj⟩) := by
  intro l
  induction l with
  | nil =>
    intro out h
    have h' : Except.ok ([] : List β) = Except.ok out := h
    injection h' with h''
    subst h''
    exact ⟨rfl, fun i hi => absurd hi (Nat.not_lt_zero i)⟩
  | cons a l ih =>
    intro out h
    rw [List.mapM_cons] at h
    cases hfa : f a with
    | error e =>
      rw [hfa] at h
      exact Except.noConfusion (h : Except.error e = Except.ok out)
    | ok b =>
      rw [hfa] at h
      cases hml : l.mapM f with
      | error e =>
        rw [hml] at h
        exact Except.noConfusion (h : Except.error e = Except.ok out)
      | ok bs =>
        rw [hml] at h
        have h' : Except.ok (b :: bs) = Except.ok out := h
        injection h' with h''
        subst h''
        obtain ⟨ihlen, ihget⟩ := ih bs hml
        refine ⟨by simp [ihlen], ?_⟩
        intro i hi hj
        cases i with
        | zero => simpa using hfa
        | succ i =>
          simp only [List.get_cons_succ]
          exact ihget i (by simpa using hi) (by simpa using hj)

/-- C2 counterexample: with gradient method "adjoint" and the three
booleans unset, the normalized configuration has
`use_device_jacobian_product = false` and `grad_on_execution = false`
(they are derived from the caller's original method, not from the forced
"device"), refuting the claim that all three come out true. -/
theorem C2_counterexample :
    preprocessConfig
        { gradient_method := some "adjoint", use_device_gradient := none,
          use_device_jacobian_product := none, grad_on_execution := none }
      ≠ { gradient_method := some "device", use_device_gradient := some true,
          use_device_jacobian_product := some true, grad_on_execution := some true } ∧
    preprocessConfig
        { gradient_method := some "adjoint", use_device_gradient := none,
          use_device_jacobian_product := none, grad_on_execution := none }
      = { gradient_method := some "device", use_device_gradient := some true,
          use_device_jacobian_product := some false, grad_on_execution := some false } := by
  exact ⟨by decide, by decide⟩

/-- C2 (amended): when the gradient method is "best" or "adjoint" and the
three boolean fields are unset, the normalization performed by
`preprocess` returns a new configuration whose gradient method is
"device", whose `use_device_gradient` is true, and whose
`use_device_jacobian_product` and `grad_on_execution` are false, because
the booleans are derived from the caller's original gradient method
rather than the just-forced "device". -/
theorem C2_preprocess_normalization (cfg : ExecutionConfig)
    (hgm : cfg.gradient_method = some "best" ∨ cfg.gradient_method = some "adjoint")
    (h1 : cfg.use_device_gradient = none)
    (h2 : cfg.use_device_jacobian_product = none)
    (h3 : cfg.grad_on_execution = none) :
    preprocessConfig cfg =
      { gradient_method := some "device"
        use_device_gradient := some true
        use_device_jacobian_product := some false
        grad_on_execution := some false } := by
  rcases hgm with h | h <;> simp [preprocessConfig, h, h1, h2, h3]

/-- C2 witness: the normalization theorem applied to a concrete
configuration with gradient method "best". -/
theorem C2_witness :
    preprocessConfig
        { gradient_method := some "best", use_device_gradient := none,
          use_device_jacobian_product := none, grad_on_execution := none }
      = { gradient_method := some "device", use_device_gradient := some true,
          use_device_jacobian_product := some false, grad_on_execution := some false } :=
  C2_preprocess_normalization
    { gradient_method := some "best", use_device_gradient := none,
      use_device_jacobian_product := none, grad_on_execution := none }
    (Or.inl rfl) rfl rfl rfl

/-- C3 counterexample: a circuit with 2 trainable parameters, one
measurement and no batch dimension.  `_jvp` returns the bare scalar 0,
not an all-zero value of shape `(2,)` sized by the trainable-parameter
count as the claim states. -/
theorem C3_counterexample :
    NullQubit.jvp
        { operations := [], measurements := [MP.stateOrProb []], wires := [0, 1],
          shots := [], batch_size := none, num_trainable_params := 2 }
      = Res.val (RVal.num 0) ∧
    NullQubit.jvp
        { operations := [], measurements := [MP.stateOrProb []], wires := [0, 1],
          shots := [], batch_size := none, num_trainable_params := 2 }
      ≠ Res.val (zerosVal [2]) := by
  exact ⟨by decide, by decide⟩

/-- C3 (amended): `compute_vjp` returns per circuit an all-zero array of
shape `(n,)` when the batch size is `None` and `(n, b)` otherwise (`n`
the trainable-parameter count); `compute_jvp` returns per circuit one
zero scalar per measurement (the bare scalar when there is exactly one
measurement), independent of `n` and of the batch size; both ignore the
supplied cotangent/tangent values entirely. -/
theorem C3_vjp_jvp_zero (c : Circuit) (cs : List Circuit)
    (cts1 cts2 tgs1 tgs2 : List RVal) :
    NullQubit.vjp c
      = RVal.arr (List.replicate c.num_trainable_params
          (match c.batch_size with
           | none => RVal.num 0
           | some b => RVal.arr (List.replicate b (RVal.num 0)))) ∧
    NullQubit.jvp c
      = (if c.measurements.length = 1 then Res.val (RVal.num 0)
         else Res.seq (List.replicate c.measurements.length (Res.val (RVal.num 0)))) ∧
    NullQubit.compute_vjp cs cts1 = NullQubit.compute_vjp cs cts2 ∧
    NullQubit.compute_jvp cs tgs1 = NullQubit.compute_jvp cs tgs2 ∧
    NullQubit.compute_vjp cs cts1 = cs.map NullQubit.vjp ∧
    NullQubit.compute_jvp cs tgs1 = cs.map NullQubit.jvp := by
  refine ⟨?_, ?_, rfl, rfl, rfl, rfl⟩
  · cases hb : c.batch_size <;> simp [NullQubit.vjp, hb, zerosVal]
  · cases hm : c.measurements with
    | nil => simp [NullQubit.jvp, hm]
    | cons a t =>
      cases t <;> simp [NullQubit.jvp, hm, List.replicate]

/-- C4 evaluation at the failing input: a counts measurement over an
observable with eigenvalues `[1, -1, -1, 1]` (e.g. Z tensor Z),
`all_outcomes = True`, 100 shots and no broadcasting.  Because the
duplicated smallest eigenvalue reappears in the remaining-outcomes list,
the dict update overwrites its entry with 0 and the full shot count is
lost, contradicting the claim (and the code's own comment) that the
smallest eigenvalue receives the full shot count. -/
theorem C4_duplicate_eigvals_eval :
    zero_measurement (MP.counts true [1, -1, -1, 1] true) 2
        (ShotsArg.int (some 100)) none
      = Except.ok (RVal.dictE [(-1, ShotsArg.int (some 0)), (1, ShotsArg.int (some 0))]) ∧
    zero_measurement (MP.counts true [1, -1, -1, 1] false) 2
        (ShotsArg.int (some 100)) none
      = Except.ok (RVal.dictE [(-1, ShotsArg.int (some 100))]) := by
  exact ⟨by decide, by decide⟩

/-- C5: a state or probability measurement with effective wire count `w`
(the measurement's own wire count when non-empty, else the device wire
count) yields the basis vector of length `2 ^ w` with 1 at index 0 and 0
elsewhere, for every shots value; a batch size `b` yields `b` identical
copies. -/
theorem C5_state_prob_basis_vector (wires : List Nat) (ndw : Nat)
    (shots : ShotsArg) (b : Nat) :
    zero_measurement (MP.stateOrProb wires) ndw shots none
      = Except.ok (RVal.arr (RVal.num 1 ::
          List.replicate (2 ^ (if wires.length = 0 then ndw else wires.length) - 1)
            (RVal.num 0))) ∧
    zero_measurement (MP.stateOrProb wires) ndw shots (some b)
      = Except.ok (RVal.arr (List.replicate b (RVal.arr (RVal.num 1 ::
          List.replicate (2 ^ (if wires.length = 0 then ndw else wires.length) - 1)
            (RVal.num 0))))) ∧
    (RVal.num 1 :: List.replicate
        (2 ^ (if wires.length = 0 then ndw else wires.length) - 1)
        (RVal.num 0)).length
      = 2 ^ (if wires.length = 0 then ndw else wires.length) ∧
    ∀ v ∈ List.replicate
        (2 ^ (if wires.length = 0 then ndw else wires.length) - 1) (RVal.num 0),
      v = RVal.num 0 := by
  refine ⟨rfl, rfl, ?_, fun v hv => List.eq_of_mem_replicate hv⟩
  have hpos : 0 < 2 ^ (if wires.length = 0 then ndw else wires.length) :=
    Nat.pos_pow_of_pos _ (by norm_num)
  simp only [List.length_cons, List.length_replicate]
  omega

/-- C7: a classical-shadow measurement with a non-None batch size raises
the unsupported-combination error before any shape is computed, for every
shots value and wire count; with batch size None it returns the all-zero
array of the measurement's own shape. -/
theorem C7_shadow_broadcast_error (shape : ShotsArg → Nat → List Nat)
    (ndw : Nat) (shots : ShotsArg) (b : Nat) :
    zero_measurement (MP.shadow shape) ndw shots (some b)
      = Except.error
          "Parameter broadcasting is not supported with null.qubit and qml.classical_shadow" ∧
    zero_measurement (MP.shadow shape) ndw shots none
      = Except.ok (zerosVal (shape shots ndw)) :=
  ⟨rfl, rfl⟩

/-- C9: two runs of `execute` on the same circuit batch and configuration
yield equal result values and equal resource-report payloads whatever
timestamps are observed; the only timestamp-dependent output is the
report file name, which is exactly the fixed prefix around the
timestamp. -/
theorem C9_execute_deterministic (dw : Option (List Nat)) (track : Bool)
    (ts1 ts2 : Nat → Nat) (circuits : List Circuit) :
    (NullQubit.executeTracked dw track ts1 circuits).1
      = (NullQubit.executeTracked dw track ts2 circuits).1 ∧
    ((NullQubit.executeTracked dw track ts1 circuits).2).map Prod.snd
      = ((NullQubit.executeTracked dw track ts2 circuits).2).map Prod.snd ∧
    ((NullQubit.executeTracked dw true ts1 circuits).2).map Prod.fst
      = circuits.enum.map (fun p => NullQubit.resourcesFname (ts1 p.1)) := by
  refine ⟨rfl, ?_, by simp [NullQubit.executeTracked]⟩
  cases track <;> simp [NullQubit.executeTracked]

/-- Evaluation lemma for `perPartition` given the per-measurement
traversal result. -/
theorem perPartition_ok (ndw : Nat) (c : Circuit) (s : ShotsArg) (vs : List RVal)
    (h : c.measurements.mapM (fun mp => zero_measurement mp ndw s c.batch_size)
      = Except.ok vs) :
    NullQubit.perPartition ndw c s = Except.ok (NullQubit.wrapSingle vs) := by
  unfold NullQubit.perPartition
  conv_lhs => rw [h]
  rfl

/-- Evaluation lemma for `simulate` given the per-partition traversal
result. -/
theorem simulate_unfold_ok (dw : Option (List Nat)) (c : Circuit) (rs : List Res)
    (h : (if c.shots.isEmpty then [ShotsArg.int none]
          else c.shots.map (fun s => ShotsArg.int (some s))).mapM
            (NullQubit.perPartition (effectiveNumWires dw c) c)
      = Except.ok rs) :
    NullQubit.simulate dw c
      = if c.shots.length > 1 then Except.ok (Res.seq rs)
        else NullQubit.firstResult rs := by
  show (do
      let results ←
        (if c.shots.isEmpty then [ShotsArg.int none]
         else c.shots.map (fun s => ShotsArg.int (some s))).mapM
          (NullQubit.perPartition (effectiveNumWires dw c) c)
      if c.shots.length > 1 then pure (Res.seq results)
      else NullQubit.firstResult results) = _
  conv_lhs => rw [h]
  show (if c.shots.length > 1 then (pure (Res.seq rs) : Except String Res)
        else NullQubit.firstResult rs) = _
  split <;> rfl

/-- C1 counterexample: a single-wire gate "X" under a 2-control-wire
control modifier additionally wrapped in an adjoint modifier is recorded
as "2C(Adj(X))" — the control wrapper outermost — and the claimed
histogram key "Adj(2C(X))" is absent. -/
theorem C1_counterexample :
    (simulate_resource_use
        { operations := [Op.adjoint (Op.controlled 2 (Op.plain "X"))],
          measurements := [], wires := [0, 1, 2], shots := [],
          batch_size := none, num_trainable_params := 0 }).gate_types
      = [("2C(Adj(X))", 1)] ∧
    ("Adj(2C(X))", 1) ∉
      (simulate_resource_use
        { operations := [Op.adjoint (Op.controlled 2 (Op.plain "X"))],
          measurements := [], wires := [0, 1, 2], shots := [],
          batch_size := none, num_trainable_params := 0 }).gate_types := by
  exact ⟨by decide, by decide⟩

/-- C1 (amended): for every operation which unwraps to a base gate named
`n` (not a barrier) with accumulated control-wire count `k > 0` and
adjoint parity set, the Resource Accountant records the composed name
with the CONTROL wrapper outermost around the adjoint form,
`"kC(Adj(n))"` (the numeric k omitted when k = 1), regardless of the
order of the modifier layers on the operation. -/
theorem C1_control_wrapper_outermost (op : Op) (k : Nat) (n : String)
    (ms : List MP) (ws ss : List Nat) (bs : Option Nat) (tp : Nat)
    (hu : unwrapOp op 0 false = (k, true, n)) (hk : 0 < k) (hn : n ≠ "Barrier") :
    (simulate_resource_use
        { operations := [op], measurements := ms, wires := ws, shots := ss,
          batch_size := bs, num_trainable_params := tp }).gate_types
      = [((if k > 1 then toString k else "") ++ "C(" ++ ("Adj(" ++ n ++ ")") ++ ")", 1)] := by
  simp [simulate_resource_use, composedName, hu, hn, bumpCount, Nat.pos_iff_ne_zero.mp hk]

/-- C1 witness: the amended naming theorem applied to
Adjoint(Controlled(X, 2 control wires)). -/
theorem C1_witness :
    (simulate_resource_use
        { operations := [Op.adjoint (Op.controlled 2 (Op.plain "X"))],
          measurements := [MP.stateOrProb []], wires := [0, 1, 2], shots := [],
          batch_size := none, num_trainable_params := 0 }).gate_types
      = [("2C(Adj(X))", 1)] := by
  have h := C1_control_wrapper_outermost (Op.adjoint (Op.controlled 2 (Op.plain "X")))
    2 "X" [MP.stateOrProb []] [0, 1, 2] [] none 0 (by decide) (by decide) (by decide)
  exact h.trans (by decide)

/-- C6: per-circuit result structure of `execute` and `_simulate`.  When
the circuit has exactly one measurement the per-partition result is the
bare measurement value; otherwise it is the tuple of the measurement
values aligned with declaration order.  With a partitioned shot vector,
`_simulate` returns one top-level entry per partition in partition order;
otherwise it returns the single per-partition result.  `execute` returns
one entry per input circuit in input order. -/
theorem C6_result_structure (dw : Option (List Nat)) (c : Circuit) (cs : List Circuit) :
    (∀ (mp : MP) (s : ShotsArg) (v : RVal), c.measurements = [mp] →
        zero_measurement mp (effectiveNumWires dw c) s c.batch_size = Except.ok v →
        NullQubit.perPartition (effectiveNumWires dw c) c s = Except.ok (Res.val v)) ∧
    (∀ (s : ShotsArg) (vs : List RVal), c.measurements.length ≠ 1 →
        c.measurements.mapM
            (fun mp => zero_measurement mp (effectiveNumWires dw c) s c.batch_size)
          = Except.ok vs →
        NullQubit.perPartition (effectiveNumWires dw c) c s
            = Except.ok (Res.seq (vs.map Res.val)) ∧
          vs.length = c.measurements.length ∧
          ∀ i (hi : i < c.measurements.length) (hj : i < vs.length),
            zero_measurement (c.measurements.get ⟨i, hi⟩) (effectiveNumWires dw c) s
                c.batch_size
              = Except.ok (vs.get ⟨i, hj⟩)) ∧
    (∀ rs : List Res, 1 < c.shots.length →
        (c.shots.map (fun s => ShotsArg.int (some s))).mapM
            (NullQubit.perPartition (effectiveNumWires dw c) c)
          = Except.ok rs →
        NullQubit.simulate dw c = Except.ok (Res.seq rs) ∧
          rs.length = c.shots.length ∧
          ∀ i (hi : i < c.shots.length) (hj : i < rs.length),
            NullQubit.perPartition (effectiveNumWires dw c) c
                (ShotsArg.int (some (c.shots.get ⟨i, hi⟩)))
              = Except.ok (rs.get ⟨i, hj⟩)) ∧
    (∀ r : Res, c.shots.length ≤ 1 →
        NullQubit.perPartition (effectiveNumWires dw c) c
            (if c.shots.isEmpty then ShotsArg.int none
             else ShotsArg.int (some (c.shots.headD 0)))
          = Except.ok r →
        NullQubit.simulate dw c = Except.ok r) ∧
    (∀ rs : List Res, NullQubit.execute dw cs = Except.ok rs →
        rs.length = cs.length ∧
        ∀ i (hi : i < cs.length) (hj : i < rs.length),
          NullQubit.simulate dw (cs.get ⟨i, hi⟩) = Except.ok (rs.get ⟨i, hj⟩)) := by
  refine ⟨?_, ?_, ?_, ?_, ?_⟩
  · intro mp s v hm hz
    have hmm : c.measurements.mapM
        (fun mp => zero_measurement mp (effectiveNumWires dw c) s c.batch_size)
        = Except.ok [v] := by
      rw [hm, List.mapM_cons]
      rw [hz, List.mapM_nil]
      rfl
    exact perPartition_ok _ _ _ [v] hmm
  · intro s vs hne hmapm
    obtain ⟨hlen, hget⟩ := exceptMapM_spec _ c.measurements vs hmapm
    refine ⟨?_, hlen, hget⟩
    have hpp := perPartition_ok _ _ _ vs hmapm
    rw [hpp]
    cases vs with
    | nil => rfl
    | cons a t =>
      cases t with
      | nil => exact absurd hlen.symm hne
      | cons b t2 => rfl
  · intro rs h2 hmapm
    obtain ⟨hlen, hget⟩ := exceptMapM_spec _ _ rs hmapm
    have hne : c.shots.isEmpty = false := by
      cases hs : c.shots with
      | nil => rw [hs] at h2; simp at h2
      | cons a t => rfl
    have hsim := simulate_unfold_ok dw c rs (by rw [hne]; simpa using hmapm)
    refine ⟨?_, by simpa using hlen, ?_⟩
    · rw [hsim, if_pos h2]
    · intro i hi hj
      have h := hget i (by simpa using hi) (by simpa using hj)
      simpa [List.get_eq_getElem, List.getElem_map] using h
  · intro r h1 hpp
    cases hs : c.shots with
    | nil =>
      rw [hs] at hpp
      simp only [List.isEmpty_nil, if_pos] at hpp
      have hmm : (if c.shots.isEmpty then [ShotsArg.int none]
          else c.shots.map (fun s => ShotsArg.int (some s))).mapM
            (NullQubit.perPartition (effectiveNumWires dw c) c) = Except.ok [r] := by
        rw [hs]
        simp only [List.isEmpty_nil, if_pos, List.mapM_cons, List.mapM_nil]
        rw [hpp]
        rfl
      have hsim := simulate_unfold_ok dw c [r] hmm
      rw [hsim, if_neg (by rw [hs]; simp)]
      rfl
    | cons a t =>
      cases t with
      | nil =>
        rw [hs] at hpp
        simp at hpp
        have hmm : (if c.shots.isEmpty then [ShotsArg.int none]
            else c.shots.map (fun s => ShotsArg.int (some s))).mapM
              (NullQubit.perPartition (effectiveNumWires dw c) c) = Except.ok [r] := by
          rw [hs]
          simp only [List.isEmpty_cons, Bool.false_eq_true, if_false,
            List.map_cons, List.map_nil]
          rw [List.mapM_cons, hpp, List.mapM_nil]
          rfl
        have hsim := simulate_unfold_ok dw c [r] hmm
        rw [hsim, if_neg (by rw [hs]; simp)]
        rfl
      | cons b t2 =>
        rw [hs] at h1
        simp at h1
  · intro rs h
    exact exceptMapM_spec (NullQubit.simulate dw) cs rs h

/-- C6 witness: the structure theorem applied to a single-measurement
analytic circuit and to a two-measurement circuit with a partitioned
shot vector. -/
theorem C6_witness :
    NullQubit.simulate none
        { operations := [], measurements := [MP.stateOrProb []], wires := [0],
          shots := [], batch_size := none, num_trainable_params := 0 }
      = Except.ok (Res.val (RVal.arr [RVal.num 1, RVal.num 0])) ∧
    NullQubit.simulate none
        { operations := [], measurements := [MP.stateOrProb [], MP.stateOrProb []],
          wires := [0], shots := [5, 7], batch_size := none, num_trainable_params := 0 }
      = Except.ok (Res.seq [
          Res.seq [Res.val (RVal.arr [RVal.num 1, RVal.num 0]),
                   Res.val (RVal.arr [RVal.num 1, RVal.num 0])],
          Res.seq [Res.val (RVal.arr [RVal.num 1, RVal.num 0]),
                   Res.val (RVal.arr [RVal.num 1, RVal.num 0])]]) := by
  constructor
  · exact (C6_result_structure none
      { operations := [], measurements := [MP.stateOrProb []], wires := [0],
        shots := [], batch_size := none, num_trainable_params := 0 } []).2.2.2.1
      (Res.val (RVal.arr [RVal.num 1, RVal.num 0])) (by decide) (by decide)
  · exact ((C6_result_structure none
      { operations := [], measurements := [MP.stateOrProb [], MP.stateOrProb []],
        wires := [0], shots := [5, 7], batch_size := none, num_trainable_params := 0 } []).2.2.1
      [Res.seq [Res.val (RVal.arr [RVal.num 1, RVal.num 0]),
                Res.val (RVal.arr [RVal.num 1, RVal.num 0])],
       Res.seq [Res.val (RVal.arr [RVal.num 1, RVal.num 0]),
                Res.val (RVal.arr [RVal.num 1, RVal.num 0])]]
      (by decide) (by decide)).1

/-- C8: the resource report has `num_wires` equal to the size of the
circuit's wire set and `num_gates` equal to the sum of the histogram
values; a circuit consisting of one plain single-wire gate "X" reports
exactly one gate of type "X"; and an operation unwrapping to a barrier,
inserted anywhere, leaves the whole report unchanged. -/
theorem C8_resource_report (c : Circuit) :
    (simulate_resource_use c).num_wires = c.wires.length ∧
    (simulate_resource_use c).num_gates
      = ((simulate_resource_use c).gate_types.map Prod.snd).sum ∧
    (∀ (ms : List MP) (ws ss : List Nat) (bs : Option Nat) (tp : Nat),
      simulate_resource_use
          { operations := [Op.plain "X"], measurements := ms, wires := ws,
            shots := ss, batch_size := bs, num_trainable_params := tp }
        = { num_wires := ws.length, num_gates := 1, gate_types := [("X", 1)] }) ∧
    (∀ (op : Op) (pre post : List Op),
      (unwrapOp op 0 false).2.2 = "Barrier" →
      simulate_resource_use
          { operations := pre ++ op :: post, measurements := c.measurements,
            wires := c.wires, shots := c.shots, batch_size := c.batch_size,
            num_trainable_params := c.num_trainable_params }
        = simulate_resource_use
          { operations := pre ++ post, measurements := c.measurements,
            wires := c.wires, shots := c.shots, batch_size := c.batch_size,
            num_trainable_params := c.num_trainable_params }) := by
  refine ⟨rfl, rfl, fun ms ws ss bs tp => rfl, ?_⟩
  intro op pre post hb
  have hcn : composedName op = none := by simp [composedName, hb]
  simp [simulate_resource_use, List.foldl_append, hcn]

/-- C8 witness: the report theorem applied to a concrete circuit with a
barrier inserted after the "X" gate. -/
theorem C8_witness :
    simulate_resource_use
        { operations := [Op.plain "X", Op.plain "Barrier"], measurements := [],
          wires := [0, 1], shots := [], batch_size := none,
          num_trainable_params := 0 }
      = simulate_resource_use
        { operations := [Op.plain "X"], measurements := [],
          wires := [0, 1], shots := [], batch_size := none,
          num_trainable_params := 0 } :=
  (C8_resource_report
      { operations := [], measurements := [], wires := [0, 1], shots := [],
        batch_size := none, num_trainable_params := 0 }).2.2.2
    (Op.plain "Barrier") [Op.plain "X"] [] (by decide)

/-- C10: the effective device wire count used for result-shape synthesis
(`_simulate`) and for derivative shaping (`_derivatives`) is the length
of the device's constructed wire set when that is non-empty, and the
executed circuit's own wire count otherwise; both methods feed exactly
this count to the measurement's shape function. -/
theorem C10_effective_wire_count (c : Circuit) (l ws ss : List Nat)
    (f : ShotsArg → Nat → List Nat) (dw : Option (List Nat))
    (ops : List Op) (tp n : Nat) :
    effectiveNumWires none c = c.wires.length ∧
    effectiveNumWires (some []) c = c.wires.length ∧
    (l ≠ [] → effectiveNumWires (some l) c = l.length) ∧
    NullQubit.simulate dw
        { operations := ops, measurements := [MP.generic f], wires := ws,
          shots := [], batch_size := none, num_trainable_params := tp }
      = Except.ok (Res.val (zerosVal (f (ShotsArg.int none)
          (effectiveNumWires dw
            { operations := ops, measurements := [MP.generic f], wires := ws,
              shots := [], batch_size := none, num_trainable_params := tp })))) ∧
    NullQubit.derivatives dw
        { operations := ops, measurements := [MP.generic f], wires := ws,
          shots := ss, batch_size := none, num_trainable_params := n }
      = Except.ok (if n = 1 then
          Res.val (NullQubit.zerosLike (zerosVal (f (ShotsArg.shotspec ss)
            (effectiveNumWires dw
              { operations := ops, measurements := [MP.generic f], wires := ws,
                shots := ss, batch_size := none, num_trainable_params := n }))))
        else
          Res.seq (List.replicate n (Res.val (NullQubit.zerosLike (zerosVal
            (f (ShotsArg.shotspec ss)
              (effectiveNumWires dw
                { operations := ops, measurements := [MP.generic f], wires := ws,
                  shots := ss, batch_size := none,
                  num_trainable_params := n }))))))) := by
  refine ⟨rfl, rfl, ?_, rfl, ?_⟩
  · intro hl
    cases l with
    | nil => exact absurd rfl hl
    | cons a t => rfl
  · by_cases h : n = 1
    · subst h; rfl
    · rw [if_neg h]
      simp [NullQubit.derivatives, h, List.mapM_cons, List.mapM_nil]
      rfl

/-- C10 witness: the wire-count theorem applied with a non-empty device
wire list of length 2. -/
theorem C10_witness :
    effectiveNumWires (some [3, 4])
        { operations := [], measurements := [], wires := [0], shots := [],
          batch_size := none, num_trainable_params := 0 }
      = 2 :=
  (C10_effective_wire_count
      { operations := [], measurements := [], wires := [0], shots := [],
        batch_size := none, num_trainable_params := 0 }
      [3, 4] [] [] (fun _ n => [n]) none [] 0 0).2.2.1 (by decide)

/-- C5 witness: the basis-vector theorem applied to a measurement with no
own wires on a 2-wire device, with the all-zero-tail fact discharged at a
concrete member. -/
theorem C5_witness :
    zero_measurement (MP.stateOrProb []) 2 (ShotsArg.int (some 10)) none
      = Except.ok (RVal.arr (RVal.num 1 :: List.replicate (2 ^ 2 - 1) (RVal.num 0))) ∧
    RVal.num 0 = RVal.num 0 :=
  ⟨(C5_state_prob_basis_vector [] 2 (ShotsArg.int (some 10)) 3).1,
   (C5_state_prob_basis_vector [] 2 (ShotsArg.int (some 10)) 3).2.2.2
     (RVal.num 0) (by decide)⟩
